import Mathlib

/-!
# Verification of the Shalabi-Market order fulfillment engine

A shallow embedding of the orders service (`orders.service.js`, here the file
`src/unnamed/part_005`) together with the guest-order migration performed at
OTP verification time (`src/modules/auth/auth.service.js`).

Modelling conventions:
* The relational store (Prisma/PostgreSQL) is a record of lists, one list per
  table, acted upon by pure state-transforming functions.
* SQL `DECIMAL` quantities and prices are rationals (`ℚ`); JavaScript's
  `Math.round(x * 100) / 100` is `round2` below (`Math.round` rounds half
  towards positive infinity, i.e. `⌊x + 1/2⌋`).
* A Prisma `$transaction` closure that may throw is a function into `Except`:
  an `.error` result contributes no state change (implicit rollback-on-throw),
  while writes issued *before* the transaction opens are modelled as ordinary
  state updates that are kept even when a later step fails.
* `tx.<table>.updateMany` is a map over the table's list returning the count
  of affected rows; `update` on a unique key that is known to exist is a map
  over the list as well.
-/

deriving instance DecidableEq for Except

/- Batteries marks the rational-number operations irreducible for the
elaborator; re-allow unfolding so that concrete runs of the embedded
operations can be evaluated by `decide`. -/
attribute [local semireducible] Rat.add Rat.sub Rat.mul Rat.inv Rat.ofScientific

namespace Shalabi

/-- JavaScript `Math.round`: rounds half towards positive infinity. -/
def jsRound (x : ℚ) : ℤ := Int.floor (x + 1/2)

/-- `Math.round(x * 100) / 100`: round to two decimal places. -/
def round2 (x : ℚ) : ℚ := (jsRound (x * 100) : ℚ) / 100

/-- Order status. The database constraint `order_status_check` (schema line
162) restricts the `status` column to exactly these five values; the dead
`'Pending'` key of the transition map in `changeOrderStatus` is therefore not
a representable order status. -/
inductive OrderStatus where
  | Created
  | Confirmed
  | Shipped
  | Delivered
  | Cancelled
deriving DecidableEq, Repr

/-- Reason column of the append-only `stock_transactions` audit table. -/
inductive StockReason where
  | purchase
  | admin_add
  | admin_remove
  | cancellation
deriving DecidableEq, Repr

inductive PaymentStatus where
  | Pending
  | Completed
  | Cancelled
deriving DecidableEq, Repr

structure Product where
  product_id : Nat
  name : String
  price : ℚ
  cost_price : ℚ
  sale_type : String
  stock_quantity : ℚ
  is_active : Bool
deriving DecidableEq, Repr

structure Guest where
  guest_id : Nat
  phone_number : Option String
  name : Option String
deriving DecidableEq, Repr

structure User where
  user_id : Nat
  phone_number : String
  name : Option String
  is_verified : Bool
deriving DecidableEq, Repr

structure Address where
  address_id : Nat
  user_id : Nat
  first_name : Option String
  last_name : Option String
  city : Option String
  region : Option String
  street : Option String
  phone_number : Option String
deriving DecidableEq, Repr

structure Order where
  order_id : Nat
  user_id : Option Nat
  guest_id : Option Nat
  status : OrderStatus
  total_products_price : ℚ
  shipping_fees : ℚ
  discount_amount : ℚ
  final_total : ℚ
  shipping_first_name : Option String
  shipping_last_name : Option String
  shipping_city : Option String
  shipping_region : Option String
  shipping_street : Option String
  shipping_phone : Option String
  delivered_at : Bool
deriving DecidableEq, Repr

structure OrderItem where
  order_id : Nat
  product_id : Nat
  quantity : ℚ
  price_at_purchase : ℚ
  cost_price_at_purchase : ℚ
deriving DecidableEq, Repr

structure StockTransaction where
  product_id : Nat
  quantity_change : ℚ
  reason : StockReason
  related_order_id : Option Nat
deriving DecidableEq, Repr

structure Payment where
  order_id : Nat
  payment_method : String
  amount : ℚ
  status : PaymentStatus
deriving DecidableEq, Repr

structure OrderStatusHistory where
  order_id : Nat
  old_status : Option OrderStatus
  new_status : OrderStatus
deriving DecidableEq, Repr

structure Cart where
  cart_id : Nat
  user_id : Nat
deriving DecidableEq, Repr

structure CartItem where
  cart_id : Nat
  product_id : Nat
  quantity : ℚ
deriving DecidableEq, Repr

/-- The relational store, one list per table touched by the orders service. -/
structure DB where
  products : List Product
  guests : List Guest
  users : List User
  addresses : List Address
  orders : List Order
  orderItems : List OrderItem
  stockTransactions : List StockTransaction
  payments : List Payment
  statusHistory : List OrderStatusHistory
  carts : List Cart
  cartItems : List CartItem
  nextOrderId : Nat
deriving DecidableEq, Repr

/-- Business failures surfaced by the orders service. Payloads record the
data interpolated into the thrown `Error` message. -/
inductive OrderError where
  | invalidIdentity
  | emptyItems
  | guestNotFound (guest_id : Nat)
  | productUnavailable (product_id : Nat)
  | insufficientStock (name : String) (available : ℚ) (sale_type : String)
  | addressNotFound
  | insufficientStockConflict (name : String)
  | orderNotFound
  | invalidStatus
  | illegalTransition (fromStatus toStatus : OrderStatus)
  | onlyCreatedCancellable
deriving DecidableEq, Repr

/-- One entry of `orderData.items`. -/
structure ItemInput where
  product_id : Nat
  quantity : ℚ
deriving DecidableEq, Repr

/-- The `orderData` argument of `placeOrder`. -/
structure OrderData where
  user_id : Option Nat
  guest_id : Option Nat
  items : List ItemInput
  phone_number : Option String
  first_name : Option String
  last_name : Option String
  address_id : Option Nat
  region : Option String
  street : Option String
deriving DecidableEq, Repr

/-- The summary object returned by a successful `placeOrder`. -/
structure OrderSummary where
  order_id : Nat
  status : OrderStatus
  total_products_price : ℚ
  shipping_fees : ℚ
  discount_amount : ℚ
  final_total : ℚ
  items_count : Nat
deriving DecidableEq, Repr

/-! ## Store primitives -/

/-- `prisma.user.findUnique({ where: { phone_number } })`. The lookup keys on
the phone number alone; there is no `is_verified` filter in the source. -/
def findUserByPhone (db : DB) (phone : String) : Option User :=
  db.users.find? (fun u => decide (u.phone_number = phone))

/-- `prisma.guest.update({ where: { guest_id }, data })`: fails (throws) when
no such guest exists, otherwise rewrites that row. -/
def updateGuest (db : DB) (gid : Nat) (f : Guest → Guest) : Option DB :=
  if db.guests.any (fun g => decide (g.guest_id = gid)) then
    some { db with guests := db.guests.map (fun g => if g.guest_id = gid then f g else g) }
  else
    none

/-- `tx.product.findFirst({ where: { product_id, is_active: true } })`. -/
def findActiveProduct (db : DB) (pid : Nat) : Option Product :=
  db.products.find? (fun p => decide (p.product_id = pid ∧ p.is_active = true))

/-- The atomic stock decrement of `placeOrder` (part_005 lines 216-222):
`tx.product.updateMany({ where: { product_id, stock_quantity: { gte: qty } },
data: { stock_quantity: { decrement: qty } } })`, returning the updated store
and the count of affected rows. The `WHERE` clause requires only that the
product id matches and that `stock_quantity >= qty`. -/
def conditionalDecrementStock (db : DB) (pid : Nat) (qty : ℚ) : DB × Nat :=
  let affected := db.products.filter
    (fun p => decide (p.product_id = pid ∧ qty ≤ p.stock_quantity))
  let products := db.products.map (fun p =>
    if p.product_id = pid ∧ qty ≤ p.stock_quantity then
      { p with stock_quantity := p.stock_quantity - qty }
    else p)
  ({ db with products := products }, affected.length)

/-- `tx.product.update({ where: { product_id }, data: { stock_quantity:
{ increment: qty } } })`: the unconditional stock restore used on
cancellation (`product_id` is the primary key, so the row is unique). -/
def incrementStock (db : DB) (pid : Nat) (qty : ℚ) : DB :=
  { db with products := db.products.map (fun p =>
      if p.product_id = pid then { p with stock_quantity := p.stock_quantity + qty } else p) }

/-- Rewrite the status of one order row (`tx.order.update` on the key). -/
def updateOrderRow (db : DB) (oid : Nat) (f : Order → Order) : DB :=
  { db with orders := db.orders.map (fun o => if o.order_id = oid then f o else o) }

/-- `tx.payment.updateMany({ where: { order_id }, data: { status } })`. -/
def setPaymentsStatus (db : DB) (oid : Nat) (st : PaymentStatus) : DB :=
  { db with payments := db.payments.map (fun p =>
      if p.order_id = oid then { p with status := st } else p) }

/-! ## placeOrder -/

/-- JavaScript `String.prototype.trim`: strip whitespace from both ends
(modelled over the character list; the core `String.trim` recurses on byte
positions and does not reduce). -/
def jsTrim (s : String) : String :=
  ⟨((s.data.dropWhile Char.isWhitespace).reverse.dropWhile Char.isWhitespace).reverse⟩

/-- `` `${first_name || ''} ${last_name || ''}`.trim() || null ``. -/
def fullNameOf (first last : Option String) : Option String :=
  let s := jsTrim ((first.getD "") ++ " " ++ (last.getD ""))
  if s = "" then none else some s

/-- The guest phone resolution block of `placeOrder` (part_005 lines 29-71).
It runs *before* `prisma.$transaction` opens, so its guest-record writes
commit independently of the later transaction. Returns the possibly-updated
store and the resolved `(user_id, guest_id)` pair. -/
def resolveGuestIdentity (db : DB) (od : OrderData) :
    DB × Except OrderError (Option Nat × Option Nat) :=
  match od.guest_id, od.phone_number with
  | some originalGuestId, some phone =>
    match updateGuest db originalGuestId
        (fun g => { g with phone_number := some phone,
                           name := fullNameOf od.first_name od.last_name }) with
    | none => (db, .error (.guestNotFound originalGuestId))
    | some db1 =>
      match findUserByPhone db1 phone with
      | some existingUser =>
        -- Link order to the registered user instead of the guest
        (db1, .ok (some existingUser.user_id, none))
      | none =>
        -- Check if another guest already has this phone
        match db1.guests.find? (fun g =>
            decide (g.phone_number = some phone ∧ g.guest_id ≠ originalGuestId)) with
        | some existingGuest =>
          -- Link to existing guest record; update its name when one was given
          match fullNameOf od.first_name od.last_name with
          | some fn =>
            match updateGuest db1 existingGuest.guest_id (fun g => { g with name := some fn }) with
            | none => (db1, .error (.guestNotFound existingGuest.guest_id))
            | some db2 => (db2, .ok (od.user_id, some existingGuest.guest_id))
          | none => (db1, .ok (od.user_id, some existingGuest.guest_id))
        | none => (db1, .ok (od.user_id, some originalGuestId))
  | _, _ => (db, .ok (od.user_id, od.guest_id))

/-- One step of the duplicate-product merge: add the quantity onto an
existing entry for the same product, or append a fresh entry. -/
def mergeInto (acc : List ItemInput) (it : ItemInput) : List ItemInput :=
  if acc.any (fun a => decide (a.product_id = it.product_id)) then
    acc.map (fun a =>
      if a.product_id = it.product_id then { a with quantity := a.quantity + it.quantity } else a)
  else
    acc ++ [it]

/-- Ascending insertion by `product_id`. -/
def insertAscending (it : ItemInput) : List ItemInput → List ItemInput
  | [] => [it]
  | a :: rest =>
    if it.product_id ≤ a.product_id then it :: a :: rest else a :: insertAscending it rest

/-- The duplicate merge of part_005 lines 73-83. The JavaScript object
`mergedItemsMap` is keyed by the numeric `product_id`, and `Object.values`
enumerates integer-like keys in ascending order; hence the sort. -/
def mergeItems (items : List ItemInput) : List ItemInput :=
  (items.foldl mergeInto []).foldr insertAscending []

/-- A validated item: the product snapshot plus the line subtotal. -/
structure VItem where
  product_id : Nat
  name : String
  price : ℚ
  cost_price : ℚ
  quantity : ℚ
  subtotal : ℚ
deriving DecidableEq, Repr

/-- Step 1 of the transaction (part_005 lines 88-124): for each merged item,
fresh in-transaction lookup of the active product, informative pre-check of
the requested quantity against live stock, snapshot, and accumulation of the
sum of rounded line subtotals. -/
def validateItems (db : DB) : List ItemInput → Except OrderError (List VItem × ℚ)
  | [] => .ok ([], 0)
  | it :: rest =>
    match findActiveProduct db it.product_id with
    | none => .error (.productUnavailable it.product_id)
    | some product =>
      if product.stock_quantity < it.quantity then
        .error (.insufficientStock product.name product.stock_quantity product.sale_type)
      else
        let subtotal := round2 (it.quantity * product.price)
        match validateItems db rest with
        | .error e => .error e
        | .ok (vs, total) =>
          .ok ({ product_id := product.product_id, name := product.name,
                 price := product.price, cost_price := product.cost_price,
                 quantity := it.quantity, subtotal := subtotal } :: vs,
               subtotal + total)

/-- The shipping snapshot captured on the order row. -/
structure ShippingDetails where
  first_name : Option String
  last_name : Option String
  city : Option String
  region : Option String
  street : Option String
  phone : Option String
deriving DecidableEq, Repr

/-- JavaScript `a || d` on an optional string (`null` and `''` are falsy). -/
def jsOrElse (a : Option String) (d : String) : String :=
  match a with
  | some s => if s = "" then d else s
  | none => d

/-- Step 2 of the transaction (part_005 lines 126-154): resolve the shipping
address either from a saved address owned by the user or from the explicit
request fields. -/
def resolveShipping (db : DB) (od : OrderData) (user_id : Option Nat) :
    Except OrderError ShippingDetails :=
  match od.address_id, user_id with
  | some aid, some uid =>
    match db.addresses.find? (fun a => decide (a.address_id = aid ∧ a.user_id = uid)) with
    | none => .error .addressNotFound
    | some address =>
      .ok { first_name := address.first_name, last_name := address.last_name,
            city := some (jsOrElse address.city "طولكرم"),
            region := address.region, street := address.street,
            phone := address.phone_number }
  | _, _ =>
    .ok { first_name := od.first_name, last_name := od.last_name,
          city := some "طولكرم",
          region := od.region, street := od.street, phone := od.phone_number }

/-- The region-keyed delivery fee (part_005 lines 160-171): flat default 20,
waived above a per-region free-shipping threshold. -/
def computeShippingFees (region : Option String) (total_products_price : ℚ) : ℚ :=
  if region = some "عتيل - جبل المصرية" then
    if 30 < total_products_price then 0 else 20
  else if region = some "عتيل - عتيل" then
    if 50 < total_products_price then 0 else 20
  else
    if 70 < total_products_price then 0 else 20

/-- The `order_items` row inserted for one validated item. -/
def toOrderItem (oid : Nat) (it : VItem) : OrderItem :=
  { order_id := oid, product_id := it.product_id, quantity := it.quantity,
    price_at_purchase := it.price, cost_price_at_purchase := it.cost_price }

/-- The `purchase` stock transaction paired with one stock decrement. -/
def purchaseTxn (oid : Nat) (it : VItem) : StockTransaction :=
  { product_id := it.product_id, quantity_change := -it.quantity,
    reason := .purchase, related_order_id := some oid }

/-- The per-item write loop of the transaction (part_005 lines 201-237):
order-item snapshot, guarded atomic stock decrement (failing the whole
placement when zero rows are affected), and the paired `purchase` stock
transaction. -/
def processItems (db : DB) (oid : Nat) : List VItem → Except OrderError DB
  | [] => .ok db
  | it :: rest =>
    let db1 := { db with orderItems := db.orderItems ++ [toOrderItem oid it] }
    let dec := conditionalDecrementStock db1 it.product_id it.quantity
    if dec.2 = 0 then
      .error (.insufficientStockConflict it.name)
    else
      processItems
        { dec.1 with stockTransactions := dec.1.stockTransactions ++ [purchaseTxn oid it] }
        oid rest

/-- Step 8 of the transaction (part_005 lines 258-270): delete the cart items
(not the cart row) of a registered buyer. -/
def clearUserCart (db : DB) (user_id : Option Nat) : DB :=
  match user_id with
  | none => db
  | some uid =>
    match db.carts.find? (fun c => decide (c.user_id = uid)) with
    | none => db
    | some cart =>
      { db with cartItems := db.cartItems.filter (fun ci => decide (ci.cart_id ≠ cart.cart_id)) }

/-- The `payments` row created at part_005 lines 240-247
(`cash_on_delivery`, status `Pending`, amount = final total). -/
def mkPaymentRow (oid : Nat) (final_total : ℚ) : Payment :=
  { order_id := oid, payment_method := "cash_on_delivery",
    amount := final_total, status := .Pending }

/-- The first `order_status_history` row (part_005 lines 250-256). -/
def mkFirstHistoryRow (oid : Nat) : OrderStatusHistory :=
  { order_id := oid, old_status := none, new_status := .Created }

/-- The `orders` row created at part_005 lines 176-196. -/
def mkOrderRow (oid : Nat) (user_id guest_id : Option Nat) (sd : ShippingDetails)
    (total_products_price shipping_fees discount_amount final_total : ℚ) : Order :=
  { order_id := oid, user_id := user_id, guest_id := guest_id,
    status := .Created,
    total_products_price := total_products_price,
    shipping_fees := shipping_fees, discount_amount := discount_amount,
    final_total := final_total,
    shipping_first_name := sd.first_name,
    shipping_last_name := sd.last_name,
    shipping_city := sd.city,
    shipping_region := sd.region,
    shipping_street := sd.street,
    shipping_phone := sd.phone,
    delivered_at := false }

/-- The `prisma.$transaction` closure of `placeOrder` (part_005 lines
86-282). An `.error` result models a throw, which rolls the whole
transaction back. -/
def placeOrderTx (db : DB) (od : OrderData) (user_id guest_id : Option Nat)
    (mergedItems : List ItemInput) : Except OrderError (DB × OrderSummary) :=
  match validateItems db mergedItems with
  | .error e => .error e
  | .ok (validatedItems, rawTotal) =>
    match resolveShipping db od user_id with
    | .error e => .error e
    | .ok shippingDetails =>
      let total_products_price := round2 rawTotal
      let discount_amount : ℚ := 0
      let shipping_fees := computeShippingFees shippingDetails.region total_products_price
      let final_total := round2 (total_products_price + shipping_fees - discount_amount)
      let oid := db.nextOrderId
      let order := mkOrderRow oid user_id guest_id shippingDetails
        total_products_price shipping_fees discount_amount final_total
      let db1 := { db with orders := db.orders ++ [order], nextOrderId := oid + 1 }
      match processItems db1 oid validatedItems with
      | .error e => .error e
      | .ok db2 =>
        let db3 := { db2 with payments := db2.payments ++ [mkPaymentRow oid final_total] }
        let db4 := { db3 with statusHistory := db3.statusHistory ++ [mkFirstHistoryRow oid] }
        let db5 := clearUserCart db4 user_id
        .ok (db5,
          { order_id := oid, status := .Created,
            total_products_price := total_products_price,
            shipping_fees := shipping_fees, discount_amount := discount_amount,
            final_total := final_total, items_count := validatedItems.length })

/-- `placeOrder` (part_005 lines 16-283). The identity validation, the guest
phone resolution and the duplicate merge run before the transaction opens;
a failure inside the transaction therefore keeps the guest-record writes of
`resolveGuestIdentity` while rolling back everything else. -/
def placeOrder (db : DB) (od : OrderData) : DB × Except OrderError OrderSummary :=
  if (od.user_id.isSome ∧ od.guest_id.isSome) ∨ (od.user_id.isNone ∧ od.guest_id.isNone) then
    (db, .error .invalidIdentity)
  else if od.items.isEmpty then
    (db, .error .emptyItems)
  else
    match resolveGuestIdentity db od with
    | (db1, .error e) => (db1, .error e)
    | (db1, .ok (user_id, guest_id)) =>
      match placeOrderTx db1 od user_id guest_id (mergeItems od.items) with
      | .error e => (db1, .error e)
      | .ok (db2, s) => (db2, .ok s)

/-! ## cancelOrder and changeOrderStatus -/

/-- The stock-restore loop shared by `cancelOrder` (part_005 lines 507-523)
and the cancellation branch of `changeOrderStatus` (lines 692-707): for each
order item, unconditional increment of the product's stock paired with an
appended `cancellation` stock transaction. -/
def cancelTxn (oid : Nat) (it : OrderItem) : StockTransaction :=
  { product_id := it.product_id, quantity_change := it.quantity,
    reason := .cancellation, related_order_id := some oid }

/-- The stock-restore loop itself. -/
def restoreItems (db : DB) (oid : Nat) : List OrderItem → DB
  | [] => db
  | it :: rest =>
    let db1 := incrementStock db it.product_id it.quantity
    let db2 := { db1 with stockTransactions := db1.stockTransactions ++ [cancelTxn oid it] }
    restoreItems db2 oid rest

/-- The result object of `cancelOrder`. -/
structure CancelResult where
  order_id : Nat
  status : OrderStatus
  message : String
deriving DecidableEq, Repr

/-- `cancelOrder` (part_005 lines 484-552): customer-initiated cancellation,
allowed only while the order is exactly `Created` and owned by the caller.
Runs in one transaction: stock restore with cancellation stock transactions,
status update, history row, and payment status `Cancelled`. -/
def cancelOrder (db : DB) (order_id user_id : Nat) : DB × Except OrderError CancelResult :=
  match db.orders.find? (fun o => decide (o.order_id = order_id ∧ o.user_id = some user_id)) with
  | none => (db, .error .orderNotFound)
  | some order =>
    if order.status ≠ .Created then
      (db, .error .onlyCreatedCancellable)
    else
      let items := db.orderItems.filter (fun i => decide (i.order_id = order_id))
      let db1 := restoreItems db order_id items
      let db2 := updateOrderRow db1 order_id (fun o => { o with status := .Cancelled })
      let db3 := { db2 with statusHistory := db2.statusHistory ++
        [({ order_id := order_id, old_status := some order.status,
            new_status := .Cancelled } : OrderStatusHistory)] }
      let db4 := setPaymentsStatus db3 order_id .Cancelled
      (db4, .ok { order_id := order_id, status := .Cancelled,
                  message := "Order cancelled successfully" })

/-- The result object of `changeOrderStatus`. -/
structure StatusChange where
  order_id : Nat
  old_status : OrderStatus
  new_status : OrderStatus
deriving DecidableEq, Repr

/-- The transition table of `changeOrderStatus` (part_005 lines 644-651),
restricted to the five statuses the database allows (the source map also
carries a `'Pending'` key, unreachable under the `order_status_check`
constraint). -/
def allowedTransitions : OrderStatus → List OrderStatus
  | .Created => [.Confirmed, .Shipped, .Cancelled]
  | .Confirmed => [.Shipped, .Cancelled]
  | .Shipped => [.Delivered, .Cancelled]
  | .Delivered => []
  | .Cancelled => []

/-- `changeOrderStatus` (part_005 lines 625-721): admin-driven transition.
A target outside `{Confirmed, Shipped, Delivered, Cancelled}` is rejected up
front with a generic invalid-status error (before the order is even read);
an unlisted from/to pair fails with an error naming both endpoints. Side
effects: `delivered_at` stamp and payment `Completed` on delivery; stock
restore, cancellation stock transactions and payment `Cancelled` on
cancellation; one history row on every successful transition. -/
def changeOrderStatus (db : DB) (order_id : Nat) (new_status : OrderStatus) :
    DB × Except OrderError StatusChange :=
  if new_status ∉ [OrderStatus.Confirmed, .Shipped, .Delivered, .Cancelled] then
    (db, .error .invalidStatus)
  else
    match db.orders.find? (fun o => decide (o.order_id = order_id)) with
    | none => (db, .error .orderNotFound)
    | some order =>
      if new_status ∉ allowedTransitions order.status then
        (db, .error (.illegalTransition order.status new_status))
      else
        let db1 := updateOrderRow db order_id (fun o =>
          if new_status = .Delivered then { o with status := new_status, delivered_at := true }
          else { o with status := new_status })
        let db2 := { db1 with statusHistory := db1.statusHistory ++
          [({ order_id := order_id, old_status := some order.status,
              new_status := new_status } : OrderStatusHistory)] }
        let db3 := if new_status = .Delivered then setPaymentsStatus db2 order_id .Completed else db2
        let db4 :=
          if new_status = .Cancelled then
            let items := db3.orderItems.filter (fun i => decide (i.order_id = order_id))
            setPaymentsStatus (restoreItems db3 order_id items) order_id .Cancelled
          else db3
        (db4, .ok { order_id := order_id, old_status := order.status, new_status := new_status })

/-! ## Read-path authorization -/

/-- The lookup-and-authorize prefix of `getOrderById` (part_005 lines
380-422). The guest branch runs only when the order has no `user_id`
(`!order.user_id` in the conjunction); the items/payment assembly that
follows the gate is read-only presentation and is omitted here. -/
def getOrderById (db : DB) (order_id : Nat) (user_id guest_id : Option Nat) :
    Except OrderError Order :=
  match db.orders.find? (fun o => decide (o.order_id = order_id)) with
  | none => .error .orderNotFound
  | some order =>
    if user_id.isSome ∧ order.user_id ≠ user_id then
      .error .orderNotFound
    else if guest_id.isSome ∧ order.guest_id ≠ guest_id ∧ order.user_id = none then
      match db.guests.find? (fun g => decide (some g.guest_id = guest_id)) with
      | none => .error .orderNotFound
      | some currentGuest =>
        if currentGuest.phone_number ≠ order.shipping_phone then .error .orderNotFound
        else .ok order
    else
      .ok order

/-- The lookup-and-authorize prefix of `getOrderInvoice` (part_005 lines
760-801), textually the same guard as `getOrderById`; the invoice body built
after the gate is read-only presentation and is omitted here. -/
def getOrderInvoice (db : DB) (order_id : Nat) (user_id guest_id : Option Nat) :
    Except OrderError Order :=
  match db.orders.find? (fun o => decide (o.order_id = order_id)) with
  | none => .error .orderNotFound
  | some order =>
    if user_id.isSome ∧ order.user_id ≠ user_id then
      .error .orderNotFound
    else if guest_id.isSome ∧ order.guest_id ≠ guest_id ∧ order.user_id = none then
      match db.guests.find? (fun g => decide (some g.guest_id = guest_id)) with
      | none => .error .orderNotFound
      | some currentGuest =>
        if currentGuest.phone_number ≠ order.shipping_phone then .error .orderNotFound
        else .ok order
    else
      .ok order

/-! ## Guest-order migration at OTP verification -/

/-- The `$transaction` body of `verifyOtp` (auth.service.js lines 252-288),
restricted to the stores modelled here: the user is marked verified, and if
a guest carries the verified phone number, all orders pointing at that guest
are re-owned to the user (`guest_id` nulled and `user_id` set in the same
`updateMany`). The OTP bookkeeping touches no modelled store. -/
def migrateGuestOrdersOnVerify (db : DB) (phone_number : String) (user_id : Nat) : DB :=
  let db1 : DB := { db with users := db.users.map (fun (u : User) =>
    if u.user_id = user_id then { u with is_verified := true } else u) }
  match db1.guests.find? (fun (g : Guest) => decide (g.phone_number = some phone_number)) with
  | none => db1
  | some guest =>
    { db1 with orders := db1.orders.map (fun (o : Order) =>
        if o.guest_id = some guest.guest_id then
          { o with guest_id := none, user_id := some user_id }
        else o) }

/-! ## Spec-form definitions, for comparison with the source

The two definitions below follow the specification's words rather than the
source, and exist only to be compared with the source-derived definitions
above. -/

/-- The stock decrement as the specification words it: "decrement stock by
quantity WHERE stock_quantity >= quantity AND product is active". The source
(`conditionalDecrementStock`) has no `is_active` conjunct in its `WHERE`. -/
def specConditionalDecrementStock (db : DB) (pid : Nat) (qty : ℚ) : DB × Nat :=
  let affected := db.products.filter
    (fun p => decide (p.product_id = pid ∧ qty ≤ p.stock_quantity ∧ p.is_active = true))
  let products := db.products.map (fun p =>
    if p.product_id = pid ∧ qty ≤ p.stock_quantity ∧ p.is_active = true then
      { p with stock_quantity := p.stock_quantity - qty }
    else p)
  ({ db with products := products }, affected.length)

/-- Guest phone resolution as the specification words it: the user lookup
requires a registered **verified** user, and the other guest's name is
backfilled **only if it is missing**. The source checks neither. -/
def specResolveGuestIdentity (db : DB) (od : OrderData) :
    DB × Except OrderError (Option Nat × Option Nat) :=
  match od.guest_id, od.phone_number with
  | some originalGuestId, some phone =>
    match updateGuest db originalGuestId
        (fun g => { g with phone_number := some phone,
                           name := fullNameOf od.first_name od.last_name }) with
    | none => (db, .error (.guestNotFound originalGuestId))
    | some db1 =>
      match db1.users.find? (fun u => decide (u.phone_number = phone ∧ u.is_verified = true)) with
      | some existingUser =>
        (db1, .ok (some existingUser.user_id, none))
      | none =>
        match db1.guests.find? (fun g =>
            decide (g.phone_number = some phone ∧ g.guest_id ≠ originalGuestId)) with
        | some existingGuest =>
          match fullNameOf od.first_name od.last_name, existingGuest.name with
          | some fn, none =>
            match updateGuest db1 existingGuest.guest_id (fun g => { g with name := some fn }) with
            | none => (db1, .error (.guestNotFound existingGuest.guest_id))
            | some db2 => (db2, .ok (od.user_id, some existingGuest.guest_id))
          | _, _ => (db1, .ok (od.user_id, some existingGuest.guest_id))
        | none => (db1, .ok (od.user_id, some originalGuestId))
  | _, _ => (db, .ok (od.user_id, od.guest_id))


/-- Exactly one of two optional ids is set. -/
def ExactlyOne (a b : Option Nat) : Prop :=
  (a.isSome = true ∧ b = none) ∨ (a = none ∧ b.isSome = true)

/-- The cumulative effect of the per-item decrements on one product row. -/
def applyDecrements (its : List VItem) (p : Product) : Product :=
  match its.find? (fun it => decide (it.product_id = p.product_id)) with
  | some it => { p with stock_quantity := p.stock_quantity - it.quantity }
  | none => p

/-- The cumulative effect of the per-item restore increments on one row. -/
def applyIncrements (its : List OrderItem) (p : Product) : Product :=
  match its.find? (fun it => decide (it.product_id = p.product_id)) with
  | some it => { p with stock_quantity := p.stock_quantity + it.quantity }
  | none => p


/-! ## Concrete states used to instantiate and to refute claims -/

/-- A store with no rows. -/
def emptyDB : DB :=
  { products := [], guests := [], users := [], addresses := [], orders := [],
    orderItems := [], stockTransactions := [], payments := [], statusHistory := [],
    carts := [], cartItems := [], nextOrderId := 1 }

/-- Catalog for the rounding scenario: unit prices 10.00 and 7.333. -/
def dbD : DB :=
  { emptyDB with products := [
      { product_id := 1, name := "a", price := 10, cost_price := 5, sale_type := "piece",
        stock_quantity := 100, is_active := true },
      { product_id := 2, name := "b", price := (7.333 : ℚ), cost_price := 5, sale_type := "kg",
        stock_quantity := 100, is_active := true }] }

/-- Registered buyer ordering qty 2 of product 1 and qty 3 of product 2. -/
def odD : OrderData :=
  { user_id := some 1, guest_id := none,
    items := [⟨1, 2⟩, ⟨2, 3⟩],
    phone_number := some "0599000001", first_name := some "A", last_name := some "B",
    address_id := none, region := some "بلعا", street := some "s" }

/-- One-product catalog at the given unit price, for the shipping tiers. -/
def dbC (price : ℚ) : DB :=
  { emptyDB with products := [
      { product_id := 1, name := "a", price := price, cost_price := 5, sale_type := "piece",
        stock_quantity := 10, is_active := true }] }

/-- Registered buyer ordering one unit into region عتيل - عتيل. -/
def odC : OrderData :=
  { odD with items := [⟨1, 1⟩], region := some "عتيل - عتيل" }

/-- A fresh guest session and a single product with stock 1. -/
def dbG : DB :=
  { emptyDB with
    guests := [{ guest_id := 1, phone_number := none, name := none }],
    products := [{ product_id := 1, name := "a", price := 10, cost_price := 5,
                   sale_type := "piece", stock_quantity := 1, is_active := true }] }

/-- Guest checkout supplying a phone number but asking for qty 5 (> stock). -/
def odG : OrderData :=
  { user_id := none, guest_id := some 1,
    items := [⟨1, 5⟩],
    phone_number := some "0599000001", first_name := some "Ali", last_name := none,
    address_id := none, region := some "بلعا", street := some "s" }

/-- A guest session next to a registered but **unverified** user carrying the
phone number that the guest checkout will supply. -/
def db4 : DB :=
  { emptyDB with
    guests := [{ guest_id := 1, phone_number := none, name := none }],
    users := [{ user_id := 7, phone_number := "0599000001", name := none,
                is_verified := false }] }

/-- A guest session next to a second guest that already carries the phone
number and already has a name. -/
def db4b : DB :=
  { emptyDB with
    guests := [{ guest_id := 1, phone_number := none, name := none },
               { guest_id := 2, phone_number := some "0599000001", name := some "Bob" }] }

/-- An inactive product with plenty of stock. -/
def db3x : DB :=
  { emptyDB with products := [{ product_id := 1, name := "a", price := 10, cost_price := 5,
                                sale_type := "piece", stock_quantity := 10, is_active := false }] }

/-- An order sitting in status `Confirmed`, owned by user 1. -/
def ord6 : Order :=
  { order_id := 1, user_id := some 1, guest_id := none,
    status := .Confirmed, total_products_price := 10, shipping_fees := 20,
    discount_amount := 0, final_total := 30, shipping_first_name := none,
    shipping_last_name := none, shipping_city := none, shipping_region := none,
    shipping_street := none, shipping_phone := some "0599000001", delivered_at := false }

def db6 : DB := { emptyDB with orders := [ord6] }

/-- A checkout request carrying both a user id and a guest id. -/
def odBoth : OrderData :=
  { user_id := some 1, guest_id := some 1, items := [⟨1, 1⟩],
    phone_number := none, first_name := none, last_name := none,
    address_id := none, region := none, street := none }

/-- The validated-item snapshot of product 1 in `dbG` at the oversized qty 5,
used to drive the conditional decrement into its zero-rows branch. -/
def vitG : VItem :=
  { product_id := 1, name := "a", price := 10, cost_price := 5, quantity := 5,
    subtotal := 50 }

/-- The validated snapshots produced for `odD` against `dbD`. -/
def vD1 : VItem :=
  { product_id := 1, name := "a", price := 10, cost_price := 5, quantity := 2,
    subtotal := 20 }

def vD2 : VItem :=
  { product_id := 2, name := "b", price := (7.333 : ℚ), cost_price := 5, quantity := 3,
    subtotal := 22 }

/-- The guests table of `db4` after the session guest has been stamped with
the supplied phone and name. -/
def db4stamped : DB :=
  { db4 with guests :=
      [{ guest_id := 1, phone_number := some "0599000001", name := some "Ali" }] }

/-! ## Lemmas: guest resolution and store preservation -/

/-- Every store of the database except the guests table agrees. -/
def SameExceptGuests (a b : DB) : Prop :=
  a.products = b.products ∧ a.users = b.users ∧ a.addresses = b.addresses ∧
  a.orders = b.orders ∧ a.orderItems = b.orderItems ∧
  a.stockTransactions = b.stockTransactions ∧ a.payments = b.payments ∧
  a.statusHistory = b.statusHistory ∧ a.carts = b.carts ∧
  a.cartItems = b.cartItems ∧ a.nextOrderId = b.nextOrderId

theorem sameExceptGuests_refl (a : DB) : SameExceptGuests a a := by
  unfold SameExceptGuests; repeat constructor

theorem updateGuest_some_same (db : DB) (gid : Nat) (f : Guest → Guest) (db1 : DB)
    (h : updateGuest db gid f = some db1) : SameExceptGuests db1 db := by
  unfold updateGuest at h
  split at h
  · cases h; exact sameExceptGuests_refl _
  · cases h

theorem sameExceptGuests_trans (a b c : DB) (h1 : SameExceptGuests a b)
    (h2 : SameExceptGuests b c) : SameExceptGuests a c :=
  ⟨h1.1.trans h2.1, h1.2.1.trans h2.2.1, h1.2.2.1.trans h2.2.2.1,
    h1.2.2.2.1.trans h2.2.2.2.1, h1.2.2.2.2.1.trans h2.2.2.2.2.1,
    h1.2.2.2.2.2.1.trans h2.2.2.2.2.2.1,
    h1.2.2.2.2.2.2.1.trans h2.2.2.2.2.2.2.1,
    h1.2.2.2.2.2.2.2.1.trans h2.2.2.2.2.2.2.2.1,
    h1.2.2.2.2.2.2.2.2.1.trans h2.2.2.2.2.2.2.2.2.1,
    h1.2.2.2.2.2.2.2.2.2.1.trans h2.2.2.2.2.2.2.2.2.2.1,
    h1.2.2.2.2.2.2.2.2.2.2.trans h2.2.2.2.2.2.2.2.2.2.2⟩

theorem resolveGuestIdentity_same (db : DB) (od : OrderData) :
    SameExceptGuests (resolveGuestIdentity db od).1 db := by
  unfold resolveGuestIdentity
  split
  · split
    · exact sameExceptGuests_refl _
    · next db1 h1 =>
      have s1 := updateGuest_some_same _ _ _ _ h1
      split
      · exact s1
      · split
        · split
          · split
            · exact s1
            · next db2 h5 =>
              have s2 := updateGuest_some_same _ _ _ _ h5
              exact sameExceptGuests_trans _ _ _ s2 s1
          · exact s1
        · exact s1
  · exact sameExceptGuests_refl _

theorem resolveGuestIdentity_ok_exclusive (db : DB) (od : OrderData)
    (uid gid : Option Nat)
    (hin : ExactlyOne od.user_id od.guest_id)
    (h : (resolveGuestIdentity db od).2 = .ok (uid, gid)) :
    ExactlyOne uid gid := by
  have huser : od.guest_id.isSome = true → od.user_id = none := by
    intro hg
    rcases hin with ⟨_, hb⟩ | ⟨ha, _⟩
    · rw [hb] at hg; cases hg
    · exact ha
  unfold resolveGuestIdentity at h
  split at h
  · next g0 phone hg hp =>
    have hu : od.user_id = none := huser (by rw [hg]; rfl)
    split at h
    · cases h
    · split at h
      · cases h
        exact Or.inl ⟨rfl, rfl⟩
      · split at h
        · split at h
          · split at h
            · cases h
            · cases h
              exact Or.inr ⟨hu, rfl⟩
          · cases h
            exact Or.inr ⟨hu, rfl⟩
        · cases h
          exact Or.inr ⟨hu, rfl⟩
  · cases h
    exact hin

/-! ## Lemmas: the item-processing loop -/

theorem conditionalDecrementStock_count_ne_zero (db : DB) (pid : Nat) (qty : ℚ) :
    (conditionalDecrementStock db pid qty).2 ≠ 0 ↔
      ∃ p ∈ db.products, p.product_id = pid ∧ qty ≤ p.stock_quantity := by
  simp only [conditionalDecrementStock, ne_eq, List.length_eq_zero,
    List.filter_eq_nil_iff, decide_eq_true_eq]
  push_neg
  rfl

theorem conditionalDecrementStock_products_char (db : DB) (pid : Nat) (qty : ℚ)
    (hnodup : (db.products.map Product.product_id).Nodup)
    (hcnt : (conditionalDecrementStock db pid qty).2 ≠ 0) :
    (conditionalDecrementStock db pid qty).1.products =
      db.products.map (fun p => if p.product_id = pid then
        { p with stock_quantity := p.stock_quantity - qty } else p) := by
  obtain ⟨p0, hp0mem, hp0pid, hp0st⟩ :=
    (conditionalDecrementStock_count_ne_zero db pid qty).mp hcnt
  show db.products.map _ = db.products.map _
  apply List.map_congr_left
  intro a ha
  by_cases hpid : a.product_id = pid
  · have ha0 : a = p0 :=
      List.inj_on_of_nodup_map hnodup ha hp0mem (by rw [hpid, hp0pid])
    have hst : qty ≤ a.stock_quantity := ha0 ▸ hp0st
    rw [if_pos ⟨hpid, hst⟩, if_pos hpid]
  · rw [if_neg (fun hc => hpid hc.1), if_neg hpid]

theorem processItems_ok_stockTransactions (oid : Nat) (its : List VItem) :
    ∀ db db' : DB, processItems db oid its = .ok db' →
      db'.stockTransactions = db.stockTransactions ++ its.map (purchaseTxn oid) := by
  induction its with
  | nil =>
    intro db db' h
    simp only [processItems] at h
    cases h
    simp
  | cons it rest ih =>
    intro db db' h
    simp only [processItems] at h
    split at h
    · cases h
    · rw [ih _ _ h]
      simp [conditionalDecrementStock, List.append_assoc]

theorem processItems_ok_orderItems (oid : Nat) (its : List VItem) :
    ∀ db db' : DB, processItems db oid its = .ok db' →
      db'.orderItems = db.orderItems ++ its.map (toOrderItem oid) := by
  induction its with
  | nil =>
    intro db db' h
    simp only [processItems] at h
    cases h
    simp
  | cons it rest ih =>
    intro db db' h
    simp only [processItems] at h
    split at h
    · cases h
    · rw [ih _ _ h]
      simp [conditionalDecrementStock, List.append_assoc]

theorem processItems_ok_rest (oid : Nat) (its : List VItem) :
    ∀ db db' : DB, processItems db oid its = .ok db' →
      db'.orders = db.orders ∧ db'.payments = db.payments ∧
      db'.statusHistory = db.statusHistory ∧ db'.guests = db.guests ∧
      db'.users = db.users ∧ db'.addresses = db.addresses ∧
      db'.carts = db.carts ∧ db'.cartItems = db.cartItems ∧
      db'.nextOrderId = db.nextOrderId := by
  induction its with
  | nil =>
    intro db db' h
    simp only [processItems] at h
    cases h
    exact ⟨rfl, rfl, rfl, rfl, rfl, rfl, rfl, rfl, rfl⟩
  | cons it rest ih =>
    intro db db' h
    simp only [processItems] at h
    split at h
    · cases h
    · have hr := ih _ _ h
      simpa [conditionalDecrementStock] using hr

theorem processItems_ok_nonneg (oid : Nat) (its : List VItem) :
    ∀ db db' : DB, processItems db oid its = .ok db' →
      (∀ p ∈ db.products, 0 ≤ p.stock_quantity) →
      ∀ p ∈ db'.products, 0 ≤ p.stock_quantity := by
  induction its with
  | nil =>
    intro db db' h hnn
    simp only [processItems] at h
    cases h
    exact hnn
  | cons it rest ih =>
    intro db db' h hnn
    simp only [processItems] at h
    split at h
    · cases h
    · apply ih _ _ h
      intro p hp
      simp only [conditionalDecrementStock, List.mem_map] at hp
      obtain ⟨q, hq, rfl⟩ := hp
      by_cases hc : q.product_id = it.product_id ∧ it.quantity ≤ q.stock_quantity
      · rw [if_pos hc]
        exact sub_nonneg.mpr hc.2
      · rw [if_neg hc]
        exact hnn q hq

theorem applyDecrements_cons_comm (it : VItem) (rest : List VItem)
    (hni : it.product_id ∉ rest.map VItem.product_id) (p : Product) :
    applyDecrements rest
      (if p.product_id = it.product_id then
        { p with stock_quantity := p.stock_quantity - it.quantity } else p) =
    applyDecrements (it :: rest) p := by
  by_cases hp : p.product_id = it.product_id
  · rw [if_pos hp]
    have hfind : rest.find? (fun x => decide (x.product_id = p.product_id)) = none := by
      apply List.find?_eq_none.mpr
      intro x hx
      simp only [decide_eq_true_eq]
      intro hxpid
      exact hni ((hxpid.trans hp) ▸ List.mem_map_of_mem VItem.product_id hx)
    simp only [applyDecrements, List.find?, hfind, decide_eq_true hp.symm]
  · rw [if_neg hp]
    have hd : (decide (it.product_id = p.product_id)) = false :=
      decide_eq_false (fun hc => hp hc.symm)
    simp only [applyDecrements, List.find?, hd]

theorem processItems_ok_products (oid : Nat) (its : List VItem) :
    ∀ db db' : DB, processItems db oid its = .ok db' →
      (db.products.map Product.product_id).Nodup →
      (its.map VItem.product_id).Nodup →
      db'.products = db.products.map (applyDecrements its) := by
  induction its with
  | nil =>
    intro db db' h _ _
    simp only [processItems] at h
    cases h
    have he : ∀ a : Product, applyDecrements [] a = a := fun a => rfl
    rw [List.map_congr_left (fun a _ => he a)]
    simp
  | cons it rest ih =>
    intro db db' h hnd hits
    simp only [processItems] at h
    split at h
    · cases h
    · next hz =>
      have hchar := conditionalDecrementStock_products_char
        { db with orderItems := db.orderItems ++ [toOrderItem oid it] }
        it.product_id it.quantity hnd hz
      have hnd2 : ((db.products.map (fun p => if p.product_id = it.product_id then
          { p with stock_quantity := p.stock_quantity - it.quantity } else p)).map
            Product.product_id).Nodup := by
        rw [List.map_map]
        have : (Product.product_id ∘ fun p => if p.product_id = it.product_id then
            { p with stock_quantity := p.stock_quantity - it.quantity } else p)
            = Product.product_id := by
          funext p
          by_cases hc : p.product_id = it.product_id
          · simp [hc]
          · simp [hc]
        rw [this]
        exact hnd
      have h2 := ih _ _ h (by
        show ((conditionalDecrementStock _ it.product_id it.quantity).1.products.map
          Product.product_id).Nodup
        rw [hchar]
        exact hnd2) (List.Nodup.of_cons hits)
      rw [h2]
      show ((conditionalDecrementStock
        { db with orderItems := db.orderItems ++ [toOrderItem oid it] }
        it.product_id it.quantity).1.products).map (applyDecrements rest) = _
      rw [hchar, List.map_map]
      apply List.map_congr_left
      intro a _
      have hni : it.product_id ∉ rest.map VItem.product_id := by
        intro hc
        exact (List.nodup_cons.mp hits).1 hc
      exact applyDecrements_cons_comm it rest hni a

/-! ## Lemmas: validation and the duplicate merge -/

theorem findActiveProduct_some (db : DB) (pid : Nat) (product : Product)
    (h : findActiveProduct db pid = some product) :
    product ∈ db.products ∧ product.product_id = pid ∧ product.is_active = true := by
  unfold findActiveProduct at h
  refine ⟨List.mem_of_find?_eq_some h, ?_⟩
  have hp := List.find?_some h
  simp only [decide_eq_true_eq] at hp
  exact hp

theorem validateItems_ok_char (db : DB) :
    ∀ (its : List ItemInput) (vs : List VItem) (t : ℚ),
      validateItems db its = .ok (vs, t) →
      vs.map (fun v => (v.product_id, v.quantity)) =
        its.map (fun i => (i.product_id, i.quantity)) ∧
      (∀ v ∈ vs, v.subtotal = round2 (v.quantity * v.price)) ∧
      t = (vs.map VItem.subtotal).sum := by
  intro its
  induction its with
  | nil =>
    intro vs t h
    simp only [validateItems] at h
    cases h
    simp
  | cons it rest ih =>
    intro vs t h
    simp only [validateItems] at h
    split at h
    · cases h
    · next product hfind =>
      split at h
      · cases h
      · split at h
        · cases h
        · next vs' t' hrec =>
          cases h
          obtain ⟨hmem, hpid, hact⟩ := findActiveProduct_some db it.product_id product hfind
          obtain ⟨h1, h2, h3⟩ := ih vs' t' hrec
          refine ⟨by simp [hpid, h1], ?_, by simp [h3]⟩
          intro v hv
          rcases List.mem_cons.mp hv with rfl | hv'
          · rfl
          · exact h2 v hv'

theorem mergeInto_pids_nodup (acc : List ItemInput) (it : ItemInput)
    (h : (acc.map ItemInput.product_id).Nodup) :
    ((mergeInto acc it).map ItemInput.product_id).Nodup := by
  unfold mergeInto
  split
  · have heq : (acc.map (fun a => if a.product_id = it.product_id then
        { a with quantity := a.quantity + it.quantity } else a)).map ItemInput.product_id
        = acc.map ItemInput.product_id := by
      rw [List.map_map]
      apply List.map_congr_left
      intro a _
      by_cases hc : a.product_id = it.product_id
      · simp [hc]
      · simp [hc]
    rw [heq]
    exact h
  · next hany =>
    have hnotin : it.product_id ∉ acc.map ItemInput.product_id := by
      intro hc
      apply hany
      obtain ⟨a, ha, hat⟩ := List.mem_map.mp hc
      exact List.any_eq_true.mpr ⟨a, ha, decide_eq_true hat⟩
    rw [List.map_append]
    simp only [List.map_cons, List.map_nil]
    exact List.Nodup.append h (List.nodup_singleton _)
      (List.disjoint_singleton.mpr hnotin)

theorem foldl_mergeInto_pids_nodup :
    ∀ (items acc : List ItemInput), (acc.map ItemInput.product_id).Nodup →
      ((items.foldl mergeInto acc).map ItemInput.product_id).Nodup := by
  intro items
  induction items with
  | nil => intro acc h; exact h
  | cons it rest ih =>
    intro acc h
    exact ih (mergeInto acc it) (mergeInto_pids_nodup acc it h)

theorem insertAscending_perm (it : ItemInput) :
    ∀ l : List ItemInput, (insertAscending it l).Perm (it :: l) := by
  intro l
  induction l with
  | nil => exact List.Perm.refl _
  | cons a rest ih =>
    unfold insertAscending
    split
    · exact List.Perm.refl _
    · exact (ih.cons a).trans (List.Perm.swap it a rest)

theorem foldr_insertAscending_perm :
    ∀ l : List ItemInput, (l.foldr insertAscending []).Perm l := by
  intro l
  induction l with
  | nil => exact List.Perm.refl _
  | cons a rest ih =>
    exact (insertAscending_perm a _).trans (ih.cons a)

theorem mergeItems_pids_nodup (items : List ItemInput) :
    ((mergeItems items).map ItemInput.product_id).Nodup := by
  unfold mergeItems
  have hperm := (foldr_insertAscending_perm (items.foldl mergeInto [])).map ItemInput.product_id
  exact hperm.nodup_iff.mpr (foldl_mergeInto_pids_nodup items [] List.nodup_nil)

/-! ## Lemmas: the stock-restore loop -/

theorem restoreItems_stockTransactions (oid : Nat) (its : List OrderItem) :
    ∀ db : DB, (restoreItems db oid its).stockTransactions =
      db.stockTransactions ++ its.map (cancelTxn oid) := by
  induction its with
  | nil => intro db; simp [restoreItems]
  | cons it rest ih =>
    intro db
    unfold restoreItems
    rw [ih]
    simp [incrementStock, List.append_assoc]

theorem restoreItems_rest (oid : Nat) (its : List OrderItem) :
    ∀ db : DB,
      (restoreItems db oid its).orders = db.orders ∧
      (restoreItems db oid its).payments = db.payments ∧
      (restoreItems db oid its).statusHistory = db.statusHistory ∧
      (restoreItems db oid its).guests = db.guests ∧
      (restoreItems db oid its).users = db.users ∧
      (restoreItems db oid its).orderItems = db.orderItems ∧
      (restoreItems db oid its).carts = db.carts ∧
      (restoreItems db oid its).cartItems = db.cartItems ∧
      (restoreItems db oid its).nextOrderId = db.nextOrderId := by
  induction its with
  | nil => intro db; exact ⟨rfl, rfl, rfl, rfl, rfl, rfl, rfl, rfl, rfl⟩
  | cons it rest ih =>
    intro db
    unfold restoreItems
    have hr := ih { incrementStock db it.product_id it.quantity with
      stockTransactions := (incrementStock db it.product_id it.quantity).stockTransactions
        ++ [cancelTxn oid it] }
    simpa [incrementStock] using hr

theorem applyIncrements_cons_comm (it : OrderItem) (rest : List OrderItem)
    (hni : it.product_id ∉ rest.map OrderItem.product_id) (p : Product) :
    applyIncrements rest
      (if p.product_id = it.product_id then
        { p with stock_quantity := p.stock_quantity + it.quantity } else p) =
    applyIncrements (it :: rest) p := by
  by_cases hp : p.product_id = it.product_id
  · rw [if_pos hp]
    have hfind : rest.find? (fun x => decide (x.product_id = p.product_id)) = none := by
      apply List.find?_eq_none.mpr
      intro x hx
      simp only [decide_eq_true_eq]
      intro hxpid
      exact hni ((hxpid.trans hp) ▸ List.mem_map_of_mem OrderItem.product_id hx)
    simp only [applyIncrements, List.find?, hfind, decide_eq_true hp.symm]
  · rw [if_neg hp]
    have hd : (decide (it.product_id = p.product_id)) = false :=
      decide_eq_false (fun hc => hp hc.symm)
    simp only [applyIncrements, List.find?, hd]

theorem restoreItems_products (oid : Nat) (its : List OrderItem) :
    ∀ db : DB, (its.map OrderItem.product_id).Nodup →
      (restoreItems db oid its).products = db.products.map (applyIncrements its) := by
  induction its with
  | nil =>
    intro db _
    have he : ∀ a : Product, applyIncrements [] a = a := fun a => rfl
    rw [List.map_congr_left (fun a _ => he a)]
    simp [restoreItems]
  | cons it rest ih =>
    intro db hits
    unfold restoreItems
    rw [ih _ (List.Nodup.of_cons hits)]
    have : ({ incrementStock db it.product_id it.quantity with
        stockTransactions := (incrementStock db it.product_id it.quantity).stockTransactions
          ++ [cancelTxn oid it] }).products
        = db.products.map (fun p => if p.product_id = it.product_id then
            { p with stock_quantity := p.stock_quantity + it.quantity } else p) := by
      simp [incrementStock]
    rw [this, List.map_map]
    apply List.map_congr_left
    intro a _
    have hni : it.product_id ∉ rest.map OrderItem.product_id :=
      (List.nodup_cons.mp hits).1
    exact applyIncrements_cons_comm it rest hni a

/-! ## Lemmas: inversion of a successful placement -/

theorem placeOrderTx_ok_inv (db : DB) (od : OrderData) (uid gid : Option Nat)
    (merged : List ItemInput) (db' : DB) (s : OrderSummary)
    (h : placeOrderTx db od uid gid merged = .ok (db', s)) :
    ∃ (vitems : List VItem) (rawTotal : ℚ) (sd : ShippingDetails) (db2 : DB),
      validateItems db merged = .ok (vitems, rawTotal) ∧
      resolveShipping db od uid = .ok sd ∧
      s.order_id = db.nextOrderId ∧ s.status = .Created ∧
      s.total_products_price = round2 rawTotal ∧
      s.shipping_fees = computeShippingFees sd.region s.total_products_price ∧
      s.discount_amount = 0 ∧
      s.final_total = round2 (s.total_products_price + s.shipping_fees - s.discount_amount) ∧
      s.items_count = vitems.length ∧
      processItems { db with
          orders := db.orders ++ [mkOrderRow s.order_id uid gid sd s.total_products_price
            s.shipping_fees s.discount_amount s.final_total],
          nextOrderId := s.order_id + 1 } s.order_id vitems = .ok db2 ∧
      db' = clearUserCart { db2 with
          payments := db2.payments ++ [mkPaymentRow s.order_id s.final_total],
          statusHistory := db2.statusHistory ++ [mkFirstHistoryRow s.order_id] } uid := by
  simp only [placeOrderTx] at h
  split at h
  · cases h
  · next vitems rawTotal hval =>
    split at h
    · cases h
    · next sd hship =>
      split at h
      · cases h
      · next db2 hproc =>
        cases h
        exact ⟨vitems, rawTotal, sd, db2, hval, hship, rfl, rfl, rfl, rfl, rfl, rfl, rfl,
          hproc, rfl⟩

theorem placeOrder_ok_inv (db db' : DB) (od : OrderData) (s : OrderSummary)
    (h : placeOrder db od = (db', .ok s)) :
    ∃ (db1 : DB) (uid gid : Option Nat),
      ¬((od.user_id.isSome = true ∧ od.guest_id.isSome = true) ∨
        (od.user_id.isNone = true ∧ od.guest_id.isNone = true)) ∧
      resolveGuestIdentity db od = (db1, .ok (uid, gid)) ∧
      placeOrderTx db1 od uid gid (mergeItems od.items) = .ok (db', s) := by
  unfold placeOrder at h
  split at h
  · cases h
  · next hids =>
    split at h
    · cases h
    · split at h
      · cases h
      · next db1 uid gid hres =>
        split at h
        · cases h
        · next db2 s2 htx =>
          cases h
          exact ⟨db1, uid, gid, hids, hres, htx⟩

theorem placeOrder_error_state (db db' : DB) (od : OrderData) (e : OrderError)
    (h : placeOrder db od = (db', .error e)) :
    db' = db ∨ db' = (resolveGuestIdentity db od).1 := by
  unfold placeOrder at h
  split at h
  · cases h; exact Or.inl rfl
  · split at h
    · cases h; exact Or.inl rfl
    · split at h
      · next db1 e1 hres =>
        cases h
        exact Or.inr (by rw [hres])
      · next db1 uid gid hres =>
        split at h
        · cases h
          exact Or.inr (by rw [hres])
        · cases h

theorem clearUserCart_rest (db : DB) (uid : Option Nat) :
    (clearUserCart db uid).products = db.products ∧
    (clearUserCart db uid).guests = db.guests ∧
    (clearUserCart db uid).users = db.users ∧
    (clearUserCart db uid).addresses = db.addresses ∧
    (clearUserCart db uid).orders = db.orders ∧
    (clearUserCart db uid).orderItems = db.orderItems ∧
    (clearUserCart db uid).stockTransactions = db.stockTransactions ∧
    (clearUserCart db uid).payments = db.payments ∧
    (clearUserCart db uid).statusHistory = db.statusHistory ∧
    (clearUserCart db uid).carts = db.carts ∧
    (clearUserCart db uid).nextOrderId = db.nextOrderId := by
  unfold clearUserCart
  split
  · exact ⟨rfl, rfl, rfl, rfl, rfl, rfl, rfl, rfl, rfl, rfl, rfl⟩
  · split
    · exact ⟨rfl, rfl, rfl, rfl, rfl, rfl, rfl, rfl, rfl, rfl, rfl⟩
    · exact ⟨rfl, rfl, rfl, rfl, rfl, rfl, rfl, rfl, rfl, rfl, rfl⟩

theorem resolveGuestIdentity_no_guest (db : DB) (od : OrderData)
    (h : od.guest_id = none) :
    resolveGuestIdentity db od = (db, .ok (od.user_id, od.guest_id)) := by
  unfold resolveGuestIdentity
  split
  · next g0 phone hg hp => rw [h] at hg; cases hg
  · rfl

theorem not_invalid_exactlyOne (a b : Option Nat)
    (h : ¬((a.isSome = true ∧ b.isSome = true) ∨ (a.isNone = true ∧ b.isNone = true))) :
    ExactlyOne a b := by
  cases a <;> cases b <;> simp_all [ExactlyOne]

/-- Full characterization of the stores after a successful `placeOrder`,
relative to the pre-call state. -/
theorem placeOrder_ok_stores (db db' : DB) (od : OrderData) (s : OrderSummary)
    (h : placeOrder db od = (db', .ok s)) :
    ∃ (uid gid : Option Nat) (vitems : List VItem) (o : Order),
      ExactlyOne uid gid ∧
      (od.guest_id = none → uid = od.user_id ∧ gid = od.guest_id ∧
        (resolveGuestIdentity db od).1 = db) ∧
      o.order_id = s.order_id ∧ o.user_id = uid ∧ o.guest_id = gid ∧
      o.status = .Created ∧
      s.order_id = db.nextOrderId ∧
      (vitems.map (fun v => (v.product_id, v.quantity))) =
        ((mergeItems od.items).map (fun i => (i.product_id, i.quantity))) ∧
      db'.orders = db.orders ++ [o] ∧
      db'.orderItems = db.orderItems ++ vitems.map (toOrderItem s.order_id) ∧
      db'.stockTransactions = db.stockTransactions ++ vitems.map (purchaseTxn s.order_id) ∧
      db'.payments = db.payments ++ [mkPaymentRow s.order_id s.final_total] ∧
      db'.statusHistory = db.statusHistory ++ [mkFirstHistoryRow s.order_id] ∧
      db'.users = db.users ∧ db'.addresses = db.addresses ∧ db'.carts = db.carts ∧
      ((db.products.map Product.product_id).Nodup →
        db'.products = db.products.map (applyDecrements vitems)) := by
  obtain ⟨db1, uid, gid, hids, hres, htx⟩ := placeOrder_ok_inv db db' od s h
  have hsame : SameExceptGuests db1 db := by
    have := resolveGuestIdentity_same db od
    rw [hres] at this
    exact this
  obtain ⟨vitems, rawTotal, sd, db2, hval, hship, hoid, hst, htot, hfee, hdisc, hfin,
    hcnt, hproc, hdb'⟩ := placeOrderTx_ok_inv db1 od uid gid (mergeItems od.items) db' s htx
  have hpr := processItems_ok_rest s.order_id vitems _ _ hproc
  have hpi := processItems_ok_orderItems s.order_id vitems _ _ hproc
  have hpt := processItems_ok_stockTransactions s.order_id vitems _ _ hproc
  have hcc := clearUserCart_rest { db2 with
      payments := db2.payments ++ [mkPaymentRow s.order_id s.final_total],
      statusHistory := db2.statusHistory ++ [mkFirstHistoryRow s.order_id] } uid
  obtain ⟨hvpairs, _, _⟩ := validateItems_ok_char db1 _ _ _ hval
  refine ⟨uid, gid, vitems,
    mkOrderRow s.order_id uid gid sd s.total_products_price s.shipping_fees
      s.discount_amount s.final_total, ?_, ?_, rfl, rfl, rfl, rfl, ?_, ?_, ?_, ?_, ?_, ?_, ?_,
    ?_, ?_, ?_, ?_⟩
  · -- resolved ids are mutually exclusive
    have hex : ExactlyOne od.user_id od.guest_id := not_invalid_exactlyOne _ _ hids
    exact resolveGuestIdentity_ok_exclusive db od uid gid hex (by rw [hres])
  · intro hg
    have hng := resolveGuestIdentity_no_guest db od hg
    rw [hng] at hres
    cases hres
    exact ⟨rfl, rfl, by rw [hng]⟩
  · rw [hoid]; exact hsame.2.2.2.2.2.2.2.2.2.2
  · rw [hvpairs]
  · rw [hdb', hcc.2.2.2.2.1]
    simp only []
    rw [hpr.1]
    simp only []
    rw [hsame.2.2.2.1]
  · rw [hdb', hcc.2.2.2.2.2.1]
    simp only []
    rw [hpi]
    simp only []
    rw [hsame.2.2.2.2.1]
  · rw [hdb', hcc.2.2.2.2.2.2.1]
    simp only []
    rw [hpt]
    simp only []
    rw [hsame.2.2.2.2.2.1]
  · rw [hdb', hcc.2.2.2.2.2.2.2.1]
    simp only []
    rw [hpr.2.1]
    simp only []
    rw [hsame.2.2.2.2.2.2.1]
  · rw [hdb', hcc.2.2.2.2.2.2.2.2.1]
    simp only []
    rw [hpr.2.2.1]
    simp only []
    rw [hsame.2.2.2.2.2.2.2.1]
  · rw [hdb', hcc.2.2.1]
    simp only []
    rw [hpr.2.2.2.2.1]
    simp only []
    rw [hsame.2.1]
  · rw [hdb', hcc.2.2.2.1]
    simp only []
    rw [hpr.2.2.2.2.2.1]
    simp only []
    rw [hsame.2.2.1]
  · rw [hdb', hcc.2.2.2.2.2.2.2.2.2.1]
    simp only []
    rw [hpr.2.2.2.2.2.2.1]
    simp only []
    rw [hsame.2.2.2.2.2.2.2.2.1]
  · intro hnodup
    have hnodup1 : (db1.products.map Product.product_id).Nodup := by
      rw [hsame.1]; exact hnodup
    have hvn : vitems.map VItem.product_id = (mergeItems od.items).map ItemInput.product_id := by
      have := congrArg (List.map Prod.fst) hvpairs
      simpa [List.map_map] using this
    have hvnodup : (vitems.map VItem.product_id).Nodup := by
      rw [hvn]; exact mergeItems_pids_nodup od.items
    have hpp := processItems_ok_products s.order_id vitems _ _ hproc
      (by simpa using hnodup1) hvnodup
    rw [hdb', hcc.1]
    simp only []
    rw [hpp]
    simp only []
    rw [hsame.1]

/-- Stock non-negativity is preserved by `placeOrder` on every outcome. -/
theorem placeOrder_nonneg (db : DB) (od : OrderData)
    (hnn : ∀ p ∈ db.products, 0 ≤ p.stock_quantity) :
    ∀ p ∈ (placeOrder db od).1.products, 0 ≤ p.stock_quantity := by
  rcases hpo : placeOrder db od with ⟨db', res⟩
  cases res with
  | error e =>
    rcases placeOrder_error_state db db' od e hpo with rfl | rfl
    · exact hnn
    · have hsp := (resolveGuestIdentity_same db od).1
      show ∀ p ∈ (resolveGuestIdentity db od).1.products, 0 ≤ p.stock_quantity
      rw [hsp]
      exact hnn
  | ok s =>
    obtain ⟨db1, uid, gid, hids, hres, htx⟩ := placeOrder_ok_inv db db' od s hpo
    have hsame : SameExceptGuests db1 db := by
      have := resolveGuestIdentity_same db od
      rw [hres] at this
      exact this
    obtain ⟨vitems, rawTotal, sd, db2, hval, hship, hoid, hst, htot, hfee, hdisc, hfin,
      hcnt, hproc, hdb'⟩ := placeOrderTx_ok_inv db1 od uid gid (mergeItems od.items) db' s htx
    have hnn2 := processItems_ok_nonneg s.order_id vitems _ _ hproc
      (by
        intro p hp
        simp only [] at hp
        apply hnn
        rw [← hsame.1]
        exact hp)
    show ∀ p ∈ db'.products, 0 ≤ p.stock_quantity
    rw [hdb', (clearUserCart_rest _ uid).1]
    simpa using hnn2

/-! ## Claim theorems -/

/-- C8: the shipping fee is keyed on the shipping region with three tiers:
region عتيل - جبل المصرية has fee 0 above total 30, region عتيل - عتيل has
fee 0 above total 50, every other region has fee 0 above total 70, and
otherwise the fee is the flat 20; concretely, for region عتيل - عتيل a cart
total of 60 yields shipping_fees = 0 and a cart total of 40 yields
shipping_fees = 20 with final_total = 60.00. -/
theorem shipping_fee_tiers :
    (∀ t : ℚ, computeShippingFees (some "عتيل - جبل المصرية") t =
      if 30 < t then 0 else 20) ∧
    (∀ t : ℚ, computeShippingFees (some "عتيل - عتيل") t =
      if 50 < t then 0 else 20) ∧
    (∀ (r : Option String) (t : ℚ),
      r ≠ some "عتيل - جبل المصرية" → r ≠ some "عتيل - عتيل" →
      computeShippingFees r t = if 70 < t then 0 else 20) ∧
    (placeOrder (dbC 60) odC).2 =
      .ok { order_id := 1, status := .Created, total_products_price := 60,
            shipping_fees := 0, discount_amount := 0, final_total := 60,
            items_count := 1 } ∧
    (placeOrder (dbC 40) odC).2 =
      .ok { order_id := 1, status := .Created, total_products_price := 40,
            shipping_fees := 20, discount_amount := 0, final_total := 60,
            items_count := 1 } := by
  refine ⟨?_, ?_, ?_, by decide, by decide⟩
  · intro t
    simp [computeShippingFees]
  · intro t
    simp [computeShippingFees]
  · intro r t h1 h2
    simp only [computeShippingFees]
    rw [if_neg h1, if_neg h2]

theorem shipping_fee_tiers_witness :
    (some "بلعا" : Option String) ≠ some "عتيل - جبل المصرية" ∧
    (some "بلعا" : Option String) ≠ some "عتيل - عتيل" ∧
    computeShippingFees (some "بلعا") 100 = if (70 : ℚ) < 100 then 0 else 20 :=
  ⟨by decide, by decide,
    shipping_fee_tiers.2.2.1 (some "بلعا") 100 (by decide) (by decide)⟩

/-- C10: for every order whose user_id is non-null, `getOrderById` and
`getOrderInvoice` called with a null user_id and any guest_id return the
order without any ownership or phone check: the guest authorization branch
only runs when the order has no user_id, so after a guest order is re-owned
to a user, any guest identity can read that order and its invoice. -/
theorem reowned_order_guest_read_bypass :
    ∀ (db : DB) (oid : Nat) (order : Order) (u g : Nat),
      db.orders.find? (fun o => decide (o.order_id = oid)) = some order →
      order.user_id = some u →
      getOrderById db oid none (some g) = .ok order ∧
      getOrderInvoice db oid none (some g) = .ok order := by
  intro db oid order u g hfind huser
  constructor
  · simp [getOrderById, hfind, huser]
  · simp [getOrderInvoice, hfind, huser]

theorem reowned_order_guest_read_bypass_witness :
    db6.orders.find? (fun o => decide (o.order_id = 1)) = some ord6 ∧
    ord6.user_id = some 1 ∧
    getOrderById db6 1 none (some 99) = .ok ord6 ∧
    getOrderInvoice db6 1 none (some 99) = .ok ord6 := by
  have h := reowned_order_guest_read_bypass db6 1 ord6 1 99 (by decide) (by decide)
  exact ⟨by decide, by decide, h.1, h.2⟩

/-- C6 counterexample: attempting the unlisted transition Confirmed→Created
is rejected by the up-front status filter with the generic invalid-status
error, which is not an IllegalTransition error naming the attempted from/to
pair; the claim's stated failure mode therefore does not hold for targets
equal to Created. -/
theorem changeOrderStatus_to_created_counterexample :
    (changeOrderStatus db6 1 .Created).2 = .error .invalidStatus ∧
    (changeOrderStatus db6 1 .Created).2 ≠
      .error (.illegalTransition .Confirmed .Created) ∧
    (changeOrderStatus db6 1 .Created).1 = db6 := by decide

/-- C6 (amended): `changeOrderStatus` permits exactly the transitions
Created→{Confirmed, Shipped, Cancelled}, Confirmed→{Shipped, Cancelled},
Shipped→{Delivered, Cancelled}, with Delivered and Cancelled terminal. An
attempted transition whose target is one of the admin-settable statuses
(Confirmed, Shipped, Delivered, Cancelled) but which is not listed fails
with an IllegalTransition error naming the attempted from/to pair; an
attempted transition targeting Created is rejected up front with a generic
invalid-status error that names no pair. Either failure leaves the store
unchanged. -/
theorem changeOrderStatus_transition_table :
    ∀ (db : DB) (oid : Nat) (order : Order) (ns : OrderStatus),
      db.orders.find? (fun o => decide (o.order_id = oid)) = some order →
      ((∃ r, (changeOrderStatus db oid ns).2 = .ok r) ↔
        (order.status, ns) ∈ ([(.Created, .Confirmed), (.Created, .Shipped),
          (.Created, .Cancelled), (.Confirmed, .Shipped), (.Confirmed, .Cancelled),
          (.Shipped, .Delivered), (.Shipped, .Cancelled)] :
            List (OrderStatus × OrderStatus))) ∧
      (ns = .Created → changeOrderStatus db oid ns = (db, .error .invalidStatus)) ∧
      (ns ≠ .Created → ns ∉ allowedTransitions order.status →
        changeOrderStatus db oid ns = (db, .error (.illegalTransition order.status ns))) ∧
      (∀ e, (changeOrderStatus db oid ns).2 = .error e →
        (changeOrderStatus db oid ns).1 = db) := by
  intro db oid order ns hfind
  cases hst : order.status <;> cases ns <;>
    simp [changeOrderStatus, hfind, hst, allowedTransitions]

theorem changeOrderStatus_transition_table_witness :
    db6.orders.find? (fun o => decide (o.order_id = 1)) = some ord6 ∧
    changeOrderStatus db6 1 .Delivered =
      (db6, .error (.illegalTransition .Confirmed .Delivered)) := by
  have h := changeOrderStatus_transition_table db6 1 ord6 .Delivered (by decide)
  exact ⟨by decide, h.2.2.1 (by decide) (by decide)⟩

/-- C3 counterexample: the conditional decrement of `placeOrder` is not of
the spec's form "WHERE stock_quantity >= quantity AND product is active":
on an inactive product with sufficient stock, the source update affects one
row and decrements, while the spec-form update affects zero rows. -/
theorem conditionalDecrement_ignores_active_counterexample :
    (conditionalDecrementStock db3x 1 3).2 = 1 ∧
    (specConditionalDecrementStock db3x 1 3).2 = 0 ∧
    conditionalDecrementStock db3x 1 3 ≠ specConditionalDecrementStock db3x 1 3 := by
  decide

/-- C3 (amended): every stock decrement performed by `placeOrder` is the
single conditional update `conditionalDecrementStock`, whose condition
requires only that the product id matches and stock_quantity ≥ quantity (a
row is affected exactly when such a row exists; product activity is instead
checked by the separate fresh in-transaction lookup that precedes the
decrement), and when the conditional update affects zero rows the whole
placement fails with the insufficient-stock outcome. -/
theorem conditionalDecrement_guard_and_zero_rows_fail :
    (∀ (db : DB) (pid : Nat) (qty : ℚ),
      ((conditionalDecrementStock db pid qty).2 ≠ 0 ↔
        ∃ p ∈ db.products, p.product_id = pid ∧ qty ≤ p.stock_quantity)) ∧
    (∀ (db : DB) (oid : Nat) (it : VItem) (rest : List VItem),
      (conditionalDecrementStock
        { db with orderItems := db.orderItems ++ [toOrderItem oid it] }
        it.product_id it.quantity).2 = 0 →
      processItems db oid (it :: rest) = .error (.insufficientStockConflict it.name)) := by
  constructor
  · exact conditionalDecrementStock_count_ne_zero
  · intro db oid it rest hz
    simp only [processItems]
    rw [if_pos hz]

theorem conditionalDecrement_guard_witness :
    (conditionalDecrementStock
      { dbG with orderItems := dbG.orderItems ++ [toOrderItem 1 vitG] }
      vitG.product_id vitG.quantity).2 = 0 ∧
    processItems dbG 1 [vitG] = .error (.insufficientStockConflict "a") := by
  have h := conditionalDecrement_guard_and_zero_rows_fail.2 dbG 1 vitG [] (by decide)
  exact ⟨by decide, h⟩

/-- C4 counterexample: the user lookup of the guest phone resolution has no
verified filter — a registered but unverified user with the phone captures
the order (the claim says the session's guest id should be kept) — and the
other guest's name is overwritten whenever a name is supplied, not only
when it is missing. -/
theorem resolveGuestIdentity_spec_mismatch_counterexample :
    (resolveGuestIdentity db4 odG).2 = .ok (some 7, none) ∧
    (specResolveGuestIdentity db4 odG).2 = .ok (none, some 1) ∧
    (resolveGuestIdentity db4 odG).2 ≠ (specResolveGuestIdentity db4 odG).2 ∧
    (resolveGuestIdentity db4b odG).1.guests =
      [{ guest_id := 1, phone_number := some "0599000001", name := some "Ali" },
       { guest_id := 2, phone_number := some "0599000001", name := some "Ali" }] ∧
    (specResolveGuestIdentity db4b odG).1.guests =
      [{ guest_id := 1, phone_number := some "0599000001", name := some "Ali" },
       { guest_id := 2, phone_number := some "0599000001", name := some "Bob" }] := by
  decide

/-- C4 (amended): for a guest session with a phone number supplied, the
session's guest record is first updated with the phone and supplied name;
then, if **any** registered user (verified or not) carries that phone, the
order is attached to that user (user_id set, guest_id cleared); otherwise,
if a different guest record carries that phone, the order is re-pointed to
that guest, whose name is overwritten whenever a non-empty name was
supplied (regardless of whether its name was missing); otherwise the
session's guest id is kept. -/
theorem resolveGuestIdentity_characterization :
    ∀ (db db1 : DB) (od : OrderData) (g0 : Nat) (phone : String),
      od.guest_id = some g0 → od.phone_number = some phone →
      updateGuest db g0 (fun g =>
        { g with phone_number := some phone,
                 name := fullNameOf od.first_name od.last_name }) = some db1 →
      ((∀ u, findUserByPhone db1 phone = some u →
        resolveGuestIdentity db od = (db1, .ok (some u.user_id, none))) ∧
       (findUserByPhone db1 phone = none →
        ∀ g1, db1.guests.find? (fun g =>
            decide (g.phone_number = some phone ∧ g.guest_id ≠ g0)) = some g1 →
          ((fullNameOf od.first_name od.last_name = none →
            resolveGuestIdentity db od = (db1, .ok (od.user_id, some g1.guest_id))) ∧
           (∀ fn, fullNameOf od.first_name od.last_name = some fn →
            resolveGuestIdentity db od =
              ({ db1 with guests := db1.guests.map (fun g =>
                  if g.guest_id = g1.guest_id then { g with name := some fn } else g) },
               .ok (od.user_id, some g1.guest_id))))) ∧
       (findUserByPhone db1 phone = none →
        db1.guests.find? (fun g =>
          decide (g.phone_number = some phone ∧ g.guest_id ≠ g0)) = none →
        resolveGuestIdentity db od = (db1, .ok (od.user_id, some g0)))) := by
  intro db db1 od g0 phone hg hp hupd
  refine ⟨?_, ?_, ?_⟩
  · intro u hu
    simp only [resolveGuestIdentity, hg, hp, hupd, hu]
  · intro hu g1 hg1
    constructor
    · intro hfn
      simp only [resolveGuestIdentity, hg, hp, hupd, hu, hg1]
      simp only [hfn]
    · intro fn hfn
      have hmem : g1 ∈ db1.guests := List.mem_of_find?_eq_some hg1
      have hupd2 : updateGuest db1 g1.guest_id (fun g => { g with name := some fn }) =
          some { db1 with guests := db1.guests.map (fun g =>
            if g.guest_id = g1.guest_id then { g with name := some fn } else g) } := by
        unfold updateGuest
        rw [if_pos (List.any_eq_true.mpr ⟨g1, hmem, decide_eq_true rfl⟩)]
      simp only [resolveGuestIdentity, hg, hp, hupd, hu, hg1]
      simp only [hfn, hupd2]
  · intro hu hg1
    simp only [resolveGuestIdentity, hg, hp, hupd, hu, hg1]


theorem resolveGuestIdentity_characterization_witness :
    resolveGuestIdentity db4 odG = (db4stamped, .ok (some 7, none)) := by
  have h := resolveGuestIdentity_characterization db4 db4stamped
    odG 1 "0599000001" (by decide) (by decide) (by decide)
  exact h.1 ⟨7, "0599000001", none, false⟩ (by decide)

/-- C2 counterexample: the guest-record phone/name update of identity
reconciliation runs before the transaction opens, so a failure inside the
transaction (here: insufficient stock) returns an error while the guest
record remains mutated — placement is not atomic across the guest store. -/
theorem placeOrder_failure_keeps_guest_mutation_counterexample :
    (placeOrder dbG odG).2 = .error (.insufficientStock "a" 1 "piece") ∧
    (placeOrder dbG odG).1 ≠ dbG ∧
    (placeOrder dbG odG).1.guests =
      [{ guest_id := 1, phone_number := some "0599000001", name := some "Ali" }] ∧
    dbG.guests = [{ guest_id := 1, phone_number := none, name := none }] := by
  decide

/-- C2 (amended): the transactional steps of `placeOrder` — order row,
order-item snapshots, stock decrements, purchase stock transactions,
payment row, first status-history row, cart clearing — commit together, and
a failure at any step leaves every store except the guests table unchanged;
the guest-record phone/name updates of identity reconciliation run before
the transaction opens and persist even when the placement later fails
(when the request carries no guest session or no phone number, failure
leaves the store entirely unchanged). -/
theorem placeOrder_atomicity :
    (∀ (db db' : DB) (od : OrderData) (e : OrderError),
      placeOrder db od = (db', .error e) → SameExceptGuests db' db) ∧
    (∀ (db db' : DB) (od : OrderData) (e : OrderError),
      od.guest_id = none ∨ od.phone_number = none →
      placeOrder db od = (db', .error e) → db' = db) ∧
    (∀ (db db' : DB) (od : OrderData) (s : OrderSummary),
      placeOrder db od = (db', .ok s) →
      (∃ o : Order, o.order_id = s.order_id ∧ db'.orders = db.orders ++ [o]) ∧
      (∃ vitems : List VItem,
        db'.orderItems = db.orderItems ++ vitems.map (toOrderItem s.order_id) ∧
        db'.stockTransactions = db.stockTransactions ++ vitems.map (purchaseTxn s.order_id)) ∧
      db'.payments = db.payments ++ [mkPaymentRow s.order_id s.final_total] ∧
      db'.statusHistory = db.statusHistory ++ [mkFirstHistoryRow s.order_id]) := by
  refine ⟨?_, ?_, ?_⟩
  · intro db db' od e h
    rcases placeOrder_error_state db db' od e h with rfl | rfl
    · exact sameExceptGuests_refl _
    · exact resolveGuestIdentity_same _ od
  · intro db db' od e hng h
    rcases placeOrder_error_state db db' od e h with rfl | rfl
    · rfl
    · rcases hng with hg | hp
      · rw [resolveGuestIdentity_no_guest _ od hg]
      · unfold resolveGuestIdentity
        split
        · next g0 phone hg0 hp0 => rw [hp] at hp0; cases hp0
        · rfl
  · intro db db' od s h
    obtain ⟨uid, gid, vitems, o, _, _, hooid, _, _, _, _, _, horders, hitems, htxns,
      hpay, hhist, _, _, _, _⟩ := placeOrder_ok_stores db db' od s h
    exact ⟨⟨o, hooid, horders⟩, ⟨vitems, hitems, htxns⟩, hpay, hhist⟩

theorem placeOrder_atomicity_witness :
    placeOrder dbG odG =
      ((placeOrder dbG odG).1, .error (.insufficientStock "a" 1 "piece")) ∧
    SameExceptGuests (placeOrder dbG odG).1 dbG :=
  ⟨by decide,
    placeOrder_atomicity.1 dbG (placeOrder dbG odG).1 odG
      (.insufficientStock "a" 1 "piece") (by decide)⟩

/-- C5: for every order, exactly one of user_id and guest_id is non-null:
`placeOrder` fails fast with the invalid-identity error when the caller
supplies both or neither identity (leaving the store untouched), a
successful placement preserves the exactly-one invariant across the orders
table, and the verification-time re-owning of guest orders sets user_id and
nulls guest_id together, preserving the invariant as well. -/
theorem order_owner_exclusivity :
    (∀ (db : DB) (od : OrderData),
      ((od.user_id.isSome = true ∧ od.guest_id.isSome = true) ∨
       (od.user_id.isNone = true ∧ od.guest_id.isNone = true)) →
      placeOrder db od = (db, .error .invalidIdentity)) ∧
    (∀ (db db' : DB) (od : OrderData) (s : OrderSummary),
      placeOrder db od = (db', .ok s) →
      (∀ o ∈ db.orders, ExactlyOne o.user_id o.guest_id) →
      ∀ o ∈ db'.orders, ExactlyOne o.user_id o.guest_id) ∧
    (∀ (db : DB) (phone : String) (u : Nat),
      (∀ o ∈ db.orders, ExactlyOne o.user_id o.guest_id) →
      ∀ o ∈ (migrateGuestOrdersOnVerify db phone u).orders,
        ExactlyOne o.user_id o.guest_id) := by
  refine ⟨?_, ?_, ?_⟩
  · intro db od h
    unfold placeOrder
    rw [if_pos h]
  · intro db db' od s h hinv o ho
    obtain ⟨uid, gid, vitems, onew, hex, _, _, houser, hoguest, _, _, _, horders,
      _, _, _, _, _, _, _, _⟩ := placeOrder_ok_stores db db' od s h
    rw [horders] at ho
    rcases List.mem_append.mp ho with hmem | hmem
    · exact hinv o hmem
    · have : o = onew := List.mem_singleton.mp hmem
      subst this
      rw [houser, hoguest]
      exact hex
  · intro db phone u hinv o ho
    simp only [migrateGuestOrdersOnVerify] at ho
    split at ho
    · exact hinv o ho
    · next guest hguest =>
      simp only [List.mem_map] at ho
      obtain ⟨q, hq, rfl⟩ := ho
      by_cases hc : q.guest_id = some guest.guest_id
      · rw [if_pos hc]
        exact Or.inl ⟨rfl, rfl⟩
      · rw [if_neg hc]
        exact hinv q hq

theorem order_owner_exclusivity_witness :
    ((odBoth.user_id.isSome = true ∧ odBoth.guest_id.isSome = true) ∨
     (odBoth.user_id.isNone = true ∧ odBoth.guest_id.isNone = true)) ∧
    placeOrder emptyDB odBoth = (emptyDB, .error .invalidIdentity) :=
  ⟨Or.inl ⟨rfl, rfl⟩, order_owner_exclusivity.1 emptyDB odBoth (Or.inl ⟨rfl, rfl⟩)⟩

/-- C1: stock never goes negative — `placeOrder` preserves non-negativity of
every product's stock on every outcome, because its only decrement is the
conditional update guarded by stock_quantity ≥ quantity that fails the whole
placement when it affects zero rows — and on success every decrement (by the
validated quantity, captured by `applyDecrements`) is paired with exactly one
appended `purchase` stock transaction whose quantity_change is the negated
item quantity and whose related_order_id is the new order's id
(`purchaseTxn`). -/
theorem stock_nonneg_and_purchase_pairing :
    (∀ (db : DB) (od : OrderData),
      (∀ p ∈ db.products, 0 ≤ p.stock_quantity) →
      ∀ p ∈ (placeOrder db od).1.products, 0 ≤ p.stock_quantity) ∧
    (∀ (db db' : DB) (od : OrderData) (s : OrderSummary),
      placeOrder db od = (db', .ok s) →
      (db.products.map Product.product_id).Nodup →
      ∃ vitems : List VItem,
        db'.stockTransactions = db.stockTransactions ++ vitems.map (purchaseTxn s.order_id) ∧
        db'.products = db.products.map (applyDecrements vitems)) := by
  constructor
  · exact placeOrder_nonneg
  · intro db db' od s h hnodup
    obtain ⟨uid, gid, vitems, onew, _, _, _, _, _, _, _, _, _, _, htxns, _, _, _, _, _,
      hprod⟩ := placeOrder_ok_stores db db' od s h
    exact ⟨vitems, htxns, hprod hnodup⟩

theorem stock_nonneg_and_purchase_pairing_witness :
    (∀ p ∈ dbG.products, 0 ≤ p.stock_quantity) ∧
    (∀ p ∈ (placeOrder dbG odG).1.products, 0 ≤ p.stock_quantity) :=
  ⟨by decide, stock_nonneg_and_purchase_pairing.1 dbG odG (by decide)⟩

/-- C9: `placeOrder` computes each line subtotal as round2(quantity ×
unit_price), accumulates total_products_price as the rounded sum of the
already-rounded subtotals, and computes final_total as
round2(total_products_price + shipping_fees − discount_amount); for an order
of qty 2 at 10.00 and qty 3 at 7.333 the line subtotals are 20.00 and 22.00
(21.999 rounds up) and total_products_price is 42.00. -/
theorem totals_rounding :
    (∀ (db db' : DB) (od : OrderData) (s : OrderSummary)
       (vitems : List VItem) (rawTotal : ℚ),
      placeOrder db od = (db', .ok s) →
      validateItems (resolveGuestIdentity db od).1 (mergeItems od.items) =
        .ok (vitems, rawTotal) →
      vitems.map VItem.subtotal = vitems.map (fun v => round2 (v.quantity * v.price)) ∧
      rawTotal = (vitems.map VItem.subtotal).sum ∧
      s.total_products_price = round2 rawTotal ∧
      s.final_total = round2 (s.total_products_price + s.shipping_fees - s.discount_amount)) ∧
    validateItems dbD (mergeItems odD.items) = .ok ([vD1, vD2], 42) ∧
    (placeOrder dbD odD).2 =
      .ok { order_id := 1, status := .Created, total_products_price := 42,
            shipping_fees := 20, discount_amount := 0, final_total := 62,
            items_count := 2 } := by
  refine ⟨?_, by decide, by decide⟩
  intro db db' od s vitems rawTotal hplace hval
  obtain ⟨db1, uid, gid, hids, hres, htx⟩ := placeOrder_ok_inv db db' od s hplace
  rw [hres] at hval
  obtain ⟨vitems', rawTotal', sd, db2, hval', hship, hoid, hst, htot, hfee, hdisc,
    hfin, hcnt, hproc, hdb'⟩ := placeOrderTx_ok_inv db1 od uid gid (mergeItems od.items)
    db' s htx
  rw [hval'] at hval
  cases hval
  obtain ⟨hpairs, hsub, hsum⟩ := validateItems_ok_char db1 _ _ _ hval'
  exact ⟨List.map_congr_left (fun v hv => hsub v hv), hsum, htot, by rw [hfin, hdisc]⟩

theorem totals_rounding_witness :
    [vD1, vD2].map VItem.subtotal =
      [vD1, vD2].map (fun v => round2 (v.quantity * v.price)) ∧
    (42 : ℚ) = ([vD1, vD2].map VItem.subtotal).sum ∧
    (42 : ℚ) = round2 42 ∧
    (62 : ℚ) = round2 (42 + 20 - 0) := by
  have h := totals_rounding.1 dbD (placeOrder dbD odD).1 odD
    { order_id := 1, status := .Created, total_products_price := 42,
      shipping_fees := 20, discount_amount := 0, final_total := 62, items_count := 2 }
    [vD1, vD2] 42 (by decide) (by decide)
  exact h

theorem applyIncrements_cancel (vitems : List VItem) (oid : Nat) (p : Product) :
    applyIncrements (vitems.map (toOrderItem oid)) (applyDecrements vitems p) = p := by
  cases hf : vitems.find? (fun it => decide (it.product_id = p.product_id)) with
  | none =>
    have h2 : (vitems.map (toOrderItem oid)).find?
        (fun it => decide (it.product_id = p.product_id)) = none := by
      rw [List.find?_map]
      have he : vitems.find?
          ((fun it => decide (it.product_id = p.product_id)) ∘ toOrderItem oid) = none := hf
      rw [he]
      rfl
    simp only [applyDecrements, applyIncrements, hf, h2]
  | some v =>
    have h2 : (vitems.map (toOrderItem oid)).find?
        (fun it => decide (it.product_id = p.product_id)) = some (toOrderItem oid v) := by
      rw [List.find?_map]
      have he : vitems.find?
          ((fun it => decide (it.product_id = p.product_id)) ∘ toOrderItem oid) = some v := hf
      rw [he]
      rfl
    simp only [applyDecrements, applyIncrements, hf, h2, toOrderItem]
    rw [sub_add_cancel]

/-- C7: cancelling a `Created` order is a round-trip on stock: cancelling an
order freshly placed by `placeOrder` succeeds, restores every product row to
exactly its pre-order state, appends — for each order item — a
`cancellation` StockTransaction of magnitude equal and opposite to that
item's `purchase` entry, and rewrites the order's Payment row to status
`Cancelled`. -/
theorem cancel_created_order_round_trip :
    ∀ (db0 db1 : DB) (od : OrderData) (uid : Nat) (s : OrderSummary),
      od.user_id = some uid →
      (db0.products.map Product.product_id).Nodup →
      (∀ o ∈ db0.orders, o.order_id ≠ db0.nextOrderId) →
      (∀ i ∈ db0.orderItems, i.order_id ≠ db0.nextOrderId) →
      (∀ p ∈ db0.payments, p.order_id ≠ db0.nextOrderId) →
      placeOrder db0 od = (db1, .ok s) →
      ∃ (db2 : DB) (its : List OrderItem),
        cancelOrder db1 s.order_id uid =
          (db2, .ok { order_id := s.order_id, status := .Cancelled,
                      message := "Order cancelled successfully" }) ∧
        db2.products = db0.products ∧
        db1.orderItems = db0.orderItems ++ its ∧
        db2.stockTransactions = db0.stockTransactions
          ++ its.map (fun i =>
               ({ product_id := i.product_id, quantity_change := -i.quantity,
                  reason := .purchase, related_order_id := some s.order_id } :
                StockTransaction))
          ++ its.map (cancelTxn s.order_id) ∧
        db2.payments = db0.payments ++
          [({ order_id := s.order_id, payment_method := "cash_on_delivery",
              amount := s.final_total, status := .Cancelled } : Payment)] := by
  intro db0 db1 od uid s hid hnodup hfresho hfreshi hfreshp hplace
  obtain ⟨db1x, uidx, gidx, hids, hresx, htxx⟩ := placeOrder_ok_inv db0 db1 od s hplace
  have hguestnone : od.guest_id = none := by
    cases hgid : od.guest_id with
    | none => rfl
    | some g =>
      exact absurd (Or.inl ⟨by rw [hid]; rfl, by rw [hgid]; rfl⟩) hids
  obtain ⟨uid', gid, vitems, o, hex, hnoguest, hooid, houser, hoguest, hostatus, hsoid,
    hvpairs, horders, hitems, htxns, hpay, hhist, husers, haddr, hcarts, hprod⟩ :=
    placeOrder_ok_stores db0 db1 od s hplace
  obtain ⟨huid', hgid', _⟩ := hnoguest hguestnone
  -- the freshly created order is the one the cancellation looks up
  have hfind : db1.orders.find?
      (fun o2 => decide (o2.order_id = s.order_id ∧ o2.user_id = some uid)) = some o := by
    rw [horders, List.find?_append]
    have hpre : db0.orders.find?
        (fun o2 => decide (o2.order_id = s.order_id ∧ o2.user_id = some uid)) = none := by
      apply List.find?_eq_none.mpr
      intro x hx
      simp only [decide_eq_true_eq]
      rintro ⟨hxid, _⟩
      exact (hfresho x hx) (hxid.trans hsoid)
    rw [hpre]
    have hpo : (fun o2 => decide (o2.order_id = s.order_id ∧ o2.user_id = some uid)) o
        = true :=
      decide_eq_true ⟨hooid, by rw [houser, huid', hid]⟩
    simp [List.find?, hpo]
  -- the order's items are exactly the snapshots written by the placement
  have hfilter : db1.orderItems.filter (fun i => decide (i.order_id = s.order_id)) =
      vitems.map (toOrderItem s.order_id) := by
    rw [hitems, List.filter_append]
    have hpre : db0.orderItems.filter (fun i => decide (i.order_id = s.order_id)) = [] := by
      apply List.filter_eq_nil_iff.mpr
      intro a ha
      simp only [decide_eq_true_eq]
      intro hc
      exact (hfreshi a ha) (hc.trans hsoid)
    rw [hpre]
    have hall : (vitems.map (toOrderItem s.order_id)).filter
        (fun i => decide (i.order_id = s.order_id)) = vitems.map (toOrderItem s.order_id) := by
      apply List.filter_eq_self.mpr
      intro a ha
      obtain ⟨v, _, rfl⟩ := List.mem_map.mp ha
      exact decide_eq_true rfl
    rw [hall]
    rfl
  have hvn : vitems.map VItem.product_id = (mergeItems od.items).map ItemInput.product_id := by
    have := congrArg (List.map Prod.fst) hvpairs
    simpa [List.map_map] using this
  have hvnodup : (vitems.map VItem.product_id).Nodup := by
    rw [hvn]; exact mergeItems_pids_nodup od.items
  have hitsnodup : ((vitems.map (toOrderItem s.order_id)).map OrderItem.product_id).Nodup := by
    rw [List.map_map]
    exact hvnodup
  have hprod1 : db1.products = db0.products.map (applyDecrements vitems) := hprod hnodup
  -- run the cancellation
  have hcc : cancelOrder db1 s.order_id uid =
      (setPaymentsStatus
        { updateOrderRow (restoreItems db1 s.order_id (vitems.map (toOrderItem s.order_id)))
            s.order_id (fun oo => { oo with status := OrderStatus.Cancelled }) with
          statusHistory :=
            (updateOrderRow (restoreItems db1 s.order_id (vitems.map (toOrderItem s.order_id)))
              s.order_id (fun oo => { oo with status := OrderStatus.Cancelled })).statusHistory
            ++ [({ order_id := s.order_id, old_status := some o.status,
                   new_status := OrderStatus.Cancelled } : OrderStatusHistory)] }
        s.order_id PaymentStatus.Cancelled,
       .ok ⟨s.order_id, .Cancelled, "Order cancelled successfully"⟩) := by
    simp only [cancelOrder, hfind]
    rw [if_neg (fun hx => hx hostatus), hfilter]
  refine ⟨setPaymentsStatus
      { updateOrderRow (restoreItems db1 s.order_id (vitems.map (toOrderItem s.order_id)))
          s.order_id (fun oo => { oo with status := OrderStatus.Cancelled }) with
        statusHistory :=
          (updateOrderRow (restoreItems db1 s.order_id (vitems.map (toOrderItem s.order_id)))
            s.order_id (fun oo => { oo with status := OrderStatus.Cancelled })).statusHistory
          ++ [({ order_id := s.order_id, old_status := some o.status,
                 new_status := OrderStatus.Cancelled } : OrderStatusHistory)] }
      s.order_id PaymentStatus.Cancelled,
    vitems.map (toOrderItem s.order_id), ?_, ?_, ?_, ?_, ?_⟩
  · exact hcc
  · -- products round-trip
    show (setPaymentsStatus _ s.order_id .Cancelled).products = db0.products
    simp only [setPaymentsStatus, updateOrderRow]
    rw [restoreItems_products s.order_id _ _ hitsnodup, hprod1, List.map_map]
    have hcan : ∀ a ∈ db0.products,
        (applyIncrements (vitems.map (toOrderItem s.order_id)) ∘ applyDecrements vitems) a
        = id a :=
      fun a _ => applyIncrements_cancel vitems s.order_id a
    rw [List.map_congr_left hcan, List.map_id]
  · exact hitems
  · -- the cancellation ledger entries mirror the purchase entries
    show (setPaymentsStatus _ s.order_id .Cancelled).stockTransactions = _
    simp only [setPaymentsStatus, updateOrderRow]
    rw [restoreItems_stockTransactions s.order_id _ db1, htxns]
    rw [show vitems.map (purchaseTxn s.order_id) =
        (vitems.map (toOrderItem s.order_id)).map
          (fun i =>
            ({ product_id := i.product_id, quantity_change := -i.quantity,
               reason := .purchase, related_order_id := some s.order_id } :
             StockTransaction))
      from by rw [List.map_map]; rfl]
  · -- the payment row flips to Cancelled
    show (setPaymentsStatus _ s.order_id .Cancelled).payments = _
    simp only [setPaymentsStatus, updateOrderRow]
    have hrp := (restoreItems_rest s.order_id (vitems.map (toOrderItem s.order_id)) db1).2.1
    rw [hrp, hpay, List.map_append]
    have hpref : db0.payments.map (fun p =>
        if p.order_id = s.order_id then { p with status := PaymentStatus.Cancelled } else p)
        = db0.payments := by
      have h1 : ∀ a ∈ db0.payments, (fun p =>
          if p.order_id = s.order_id then { p with status := PaymentStatus.Cancelled } else p) a
          = id a := by
        intro a ha
        simp only [id]
        rw [if_neg (fun hc => (hfreshp a ha) (hc.trans hsoid))]
      rw [List.map_congr_left h1, List.map_id]
    rw [hpref]
    congr 1
    simp only [List.map_cons, List.map_nil]
    rw [if_pos (show (mkPaymentRow s.order_id s.final_total).order_id = s.order_id from rfl)]
    rfl

theorem cancel_created_order_round_trip_witness :
    odD.user_id = some 1 ∧
    ∃ (db2 : DB) (its : List OrderItem),
      cancelOrder (placeOrder dbD odD).1 1 1 =
        (db2, .ok { order_id := 1, status := .Cancelled,
                    message := "Order cancelled successfully" }) ∧
      db2.products = dbD.products ∧
      (placeOrder dbD odD).1.orderItems = dbD.orderItems ++ its ∧
      db2.stockTransactions = dbD.stockTransactions
        ++ its.map (fun i =>
             ({ product_id := i.product_id, quantity_change := -i.quantity,
                reason := .purchase, related_order_id := some 1 } :
              StockTransaction))
        ++ its.map (cancelTxn 1) ∧
      db2.payments = dbD.payments ++
        [({ order_id := 1, payment_method := "cash_on_delivery",
            amount := 62, status := .Cancelled } : Payment)] :=
  ⟨rfl, cancel_created_order_round_trip dbD (placeOrder dbD odD).1 odD 1
    { order_id := 1, status := .Created, total_products_price := 42,
      shipping_fees := 20, discount_amount := 0, final_total := 62, items_count := 2 }
    rfl (by decide) (by decide) (by decide) (by decide) (by decide)⟩

end Shalabi
